import Mathlib

set_option maxRecDepth 2000

/-!
Shallow embedding of the Digital Water Curtain ESP32 controller firmware
(the standalone firmware revision of the repository).  Pure data is modelled
directly; the EEPROM, the pattern buffer and the device globals are passed
as explicit state.  Machine integers are modelled as `Nat`/`Int`; the byte
buffer is a function from index to byte value.
-/

namespace DWC

/-- EEPROM magic sentinel `CONFIG_MAGIC` (0x44574346, "DWCF"). -/
def CONFIG_MAGIC : Nat := 0x44574346

/-- Fixed capacity of the pattern byte buffer (`PATTERN_BUFFER_SIZE`). -/
def PATTERN_BUFFER_SIZE : Nat := 8192

/-- Bits per byte constant (`BITS_PER_BYTE`). -/
def BITS_PER_BYTE : Nat := 8

/-- The persisted configuration record (`struct Configuration`). -/
structure Configuration where
  magic : Nat
  ssid : String
  password : String
  numValves : Int
  numLeds : Int
  configured : Bool
deriving DecidableEq, Repr

/-- The all-zero record written by `clearConfiguration` (memset to 0,
`configured = false`, `magic = 0`). -/
def blankConfig : Configuration :=
  { magic := 0, ssid := "", password := "", numValves := 0, numLeds := 0,
    configured := false }

/-- Model of `loadConfiguration`: reads the stored record; on a magic
mismatch or non-positive valve/LED count it clears the EEPROM and re-reads.
Input is the current EEPROM content; the result is the in-RAM `config`
together with the EEPROM content after the call. -/
def loadConfiguration (stored : Configuration) :
    Configuration × Configuration :=
  if stored.magic ≠ CONFIG_MAGIC ∨ stored.numValves ≤ 0 ∨ stored.numLeds ≤ 0 then
    (blankConfig, blankConfig)
  else
    (stored, stored)

/-- One LED color cell; CRGB stores three bytes, so components are reduced
mod 256 on construction. -/
structure CRGB where
  r : Nat
  g : Nat
  b : Nat
deriving DecidableEq, Repr

/-- CRGB constructor applied to C `int` arguments (uint8_t narrowing). -/
def mkCRGB (r g b : Nat) : CRGB := ⟨r % 256, g % 256, b % 256⟩

/-- CRGB Black. -/
def CRGB.black : CRGB := ⟨0, 0, 0⟩

/-- The mutable device globals of the firmware: in-RAM `config`, the EEPROM
content, `BYTES_PER_ROW`, `patternBuffer` (index to byte value), the LED
array (`none` models the `nullptr` state), `numPatternRows`,
`currentPatternRow`, `isPlaying` and `animationSpeed`. -/
structure DeviceState where
  config : Configuration
  eeprom : Configuration
  bytesPerRow : Nat
  patternBuffer : Nat → Nat
  leds : Option (List CRGB)
  numPatternRows : Nat
  currentPatternRow : Nat
  isPlaying : Bool
  animationSpeed : Int

/-- Model of `saveConfiguration`: sets `config.magic = CONFIG_MAGIC` and
writes the whole record to EEPROM. -/
def saveConfiguration (s : DeviceState) : DeviceState :=
  let cfg := { s.config with magic := CONFIG_MAGIC }
  { s with config := cfg, eeprom := cfg }

/-- Model of `clearConfiguration`: writes the blank record to EEPROM (the
in-RAM `config` is not touched). -/
def clearConfiguration (s : DeviceState) : DeviceState :=
  { s with eeprom := blankConfig }

/-- Model of `setupHardware`: releases the LED array, then, when the
configured counts are sane, recomputes `BYTES_PER_ROW = ceil(valves/8)` and
allocates a fresh all-black LED array. -/
def setupHardware (s : DeviceState) : DeviceState :=
  let s0 := { s with leds := none }
  if 0 < s0.config.numValves ∧ 0 < s0.config.numLeds then
    { s0 with
      bytesPerRow := (s0.config.numValves.toNat + BITS_PER_BYTE - 1) / BITS_PER_BYTE,
      leds := some (List.replicate s0.config.numLeds.toNat CRGB.black) }
  else
    s0

/-- memcpy of a byte list into the buffer at a given offset. -/
def writeBytes (buf : Nat → Nat) (off : Nat) : List Nat → (Nat → Nat)
  | [] => buf
  | d :: rest => writeBytes (fun i => if i = off then d else buf i) (off + 1) rest

/-- Reads `B` consecutive bytes of the buffer starting at `off` (the view
`&patternBuffer[off]` handed to `writeShiftRegisters`). -/
def readRow (buf : Nat → Nat) : Nat → Nat → List Nat
  | _, 0 => []
  | off, B + 1 => buf off :: readRow buf (off + 1) B

/-- Inner valve loop of `load_pattern`: walks the boolean row, setting bit
`valveIndex % 8` of byte `valveIndex / 8` of `rowData` for each open valve,
skipping valves whose byte position falls outside `BYTES_PER_ROW`. -/
def packRowAux (B : Nat) : List Bool → Nat → List Nat → List Nat
  | [], _, rowData => rowData
  | valveOn :: rest, valveIndex, rowData =>
    let bytePos := valveIndex / BITS_PER_BYTE
    let bitPos := valveIndex % BITS_PER_BYTE
    let rowData' :=
      if valveOn then
        if bytePos < B then
          rowData.set bytePos ((rowData.getD bytePos 0) ||| (1 <<< bitPos))
        else rowData
      else rowData
    packRowAux B rest (valveIndex + 1) rowData'

/-- Packs one boolean row into `B` bytes (`byte rowData[B] = \x7b0\x7d` then
the valve loop). -/
def packRow (B : Nat) (row : List Bool) : List Nat :=
  packRowAux B row 0 (List.replicate B 0)

/-- Outer row loop of `load_pattern`: packs each row and memcpys it at the
running `bufferIndex`, advancing by `BYTES_PER_ROW` per row. -/
def loadRows (buf : Nat → Nat) (B : Nat) : List (List Bool) → Nat → (Nat → Nat)
  | [], _ => buf
  | row :: rest, bufferIndex =>
    loadRows (writeBytes buf bufferIndex (packRow B row)) B rest (bufferIndex + B)

/-- Model of the `load_pattern` handler body: `numPatternRows` is set to the
incoming row count; an oversized pattern is rejected with an error, leaving
the buffer alone but with `numPatternRows = 0`; otherwise the rows are
packed into the buffer.  The Bool result records whether the error was
logged. -/
def loadPattern (s : DeviceState) (pattern : List (List Bool)) :
    DeviceState × Bool :=
  let R := pattern.length
  if PATTERN_BUFFER_SIZE < R * s.bytesPerRow then
    ({ s with numPatternRows := 0 }, true)
  else
    ({ s with
        numPatternRows := R,
        patternBuffer := loadRows s.patternBuffer s.bytesPerRow pattern 0 },
      false)

/-- Cursor advance at the end of a playback tick:
`currentPatternRow++; if (currentPatternRow >= numPatternRows) currentPatternRow = 0;`. -/
def advanceCursor (n c : Nat) : Nat :=
  if n ≤ c + 1 then 0 else c + 1

/-- Model of one pass of `loop()`.  `timeElapsed` abstracts the scheduler
condition `millis() - lastUpdateTime > animationSpeed`.  The second
component is the row handed to `writeShiftRegisters`, when any. -/
def loopTick (s : DeviceState) (timeElapsed : Bool) :
    DeviceState × Option (List Nat) :=
  if s.config.configured = true ∧ s.isPlaying = true ∧ 0 < s.numPatternRows
      ∧ timeElapsed = true then
    let currentRowOffset := s.currentPatternRow * s.bytesPerRow
    if currentRowOffset + s.bytesPerRow ≤ PATTERN_BUFFER_SIZE then
      ({ s with currentPatternRow := advanceCursor s.numPatternRows s.currentPatternRow },
        some (readRow s.patternBuffer currentRowOffset s.bytesPerRow))
    else
      ({ s with
          isPlaying := false
          currentPatternRow := advanceCursor s.numPatternRows s.currentPatternRow },
        none)
  else
    (s, none)

/-- Value of a hex digit, as accepted by `strtol` base 16. -/
def hexDigit (c : Char) : Option Nat :=
  if '0' ≤ c ∧ c ≤ '9' then some (c.toNat - '0'.toNat)
  else if 'a' ≤ c ∧ c ≤ 'f' then some (c.toNat - 'a'.toNat + 10)
  else if 'A' ≤ c ∧ c ≤ 'F' then some (c.toNat - 'A'.toNat + 10)
  else none

/-- `strtol(str, NULL, 16)` over a character list: accumulates hex digits,
stopping at the first non-digit. -/
def strtolHexAux : List Char → Nat → Nat
  | [], acc => acc
  | c :: rest, acc =>
    match hexDigit c with
    | some d => strtolHexAux rest (acc * 16 + d)
    | none => acc

/-- Hex parse of a string from its second character (`&colorStr[1]`). -/
def strtolHexFrom1 (str : String) : Nat :=
  strtolHexAux (str.drop 1).toList 0

/-- One incoming WebSocket data event, after JSON deserialization:
`unparsable` models a `DeserializationError`, `noAction` a document whose
`action` field is absent, and `unknownAction` an action string matching no
handler branch. -/
inductive WsMessage where
  | unparsable
  | noAction
  | rebootToAp
  | configCmd (valves leds : Int)
  | play
  | pause
  | speed (value : Int)
  | color (value : String)
  | loadPatternCmd (pattern : List (List Bool))
  | unknownAction (action : String)

/-- Result of one `onWsEvent` data event: the device state afterwards,
whether `ESP.restart()` was requested, whether the handler closed the
channel (it never does), the row written to the shift registers (the
`pause` branch), and whether an error line was logged. -/
structure WsResult where
  state : DeviceState
  restart : Bool
  channelClosed : Bool
  valveWrite : Option (List Nat)
  errorLogged : Bool

/-- Model of the `WS_EVT_DATA` branch of `onWsEvent` of the firmware. -/
def onWsEvent (s : DeviceState) : WsMessage → WsResult
  | .unparsable => ⟨s, false, false, none, true⟩
  | .noAction => ⟨s, false, false, none, false⟩
  | .rebootToAp => ⟨clearConfiguration s, true, false, none, false⟩
  | .configCmd newNumValves newNumLeds =>
    if 0 < newNumValves ∧ 0 < newNumLeds ∧
        (newNumValves ≠ s.config.numValves ∨ newNumLeds ≠ s.config.numLeds) then
      let s1 := { s with config :=
        { s.config with numValves := newNumValves, numLeds := newNumLeds } }
      ⟨saveConfiguration (setupHardware s1), false, false, none, false⟩
    else
      ⟨s, false, false, none, false⟩
  | .play =>
    ⟨{ s with isPlaying := true, currentPatternRow := 0 }, false, false, none, false⟩
  | .pause =>
    ⟨{ s with isPlaying := false }, false, false,
      some (List.replicate s.bytesPerRow 0), false⟩
  | .speed value => ⟨{ s with animationSpeed := value }, false, false, none, false⟩
  | .color value =>
    match s.leds with
    | none => ⟨s, false, false, none, false⟩
    | some _ =>
      let number := strtolHexFrom1 value
      let r := number >>> 16
      let g := (number >>> 8) &&& 255
      let b := number &&& 255
      ⟨{ s with leds := some (List.replicate s.config.numLeds.toNat (mkCRGB r g b)) },
        false, false, none, false⟩
  | .loadPatternCmd pattern =>
    let res := loadPattern s pattern
    ⟨res.1, false, false, none, res.2⟩
  | .unknownAction _ => ⟨s, false, false, none, false⟩

/-- WiFi join loop of `setupSTA`: `wifi n` is the result of the `n`-th
`WiFi.status()` poll; the loop polls until connected or the retry budget is
spent, and the returned value is the index of the poll at which the loop
stopped, which also counts the `delay(500)` backoffs executed. -/
def staAttempts (wifi : Nat → Bool) : Nat → Nat → Nat
  | n, 0 => n
  | n, retries + 1 => if wifi n then n else staAttempts wifi (n + 1) retries

/-- Model of `setupSTA`: 20 retries with fixed backoff; if the post-loop
status poll still reports no connection, the configuration is cleared and
the device restarts.  The Bool result records the restart. -/
def setupSTA (s : DeviceState) (wifi : Nat → Bool) : DeviceState × Bool :=
  let n := staAttempts wifi 0 20
  if wifi n then (s, false)
  else (clearConfiguration s, true)

/-! ### Helper lemmas about the byte-level operations -/

theorem getD_set_self {l : List Nat} {k : Nat} (h : k < l.length) (x d : Nat) :
    (l.set k x).getD k d = x := by
  induction l generalizing k with
  | nil => simp at h
  | cons a t ih =>
    cases k with
    | zero => rfl
    | succ k => exact ih (by simpa using h)

theorem getD_set_ne {l : List Nat} {k j : Nat} (h : k ≠ j) (x d : Nat) :
    (l.set k x).getD j d = l.getD j d := by
  induction l generalizing k j with
  | nil => rfl
  | cons a t ih =>
    cases k with
    | zero =>
      cases j with
      | zero => exact absurd rfl h
      | succ j => rfl
    | succ k =>
      cases j with
      | zero => rfl
      | succ j => simpa using ih (show k ≠ j from by omega)

theorem getD_replicate (B k d : Nat) : (List.replicate B d).getD k d = d := by
  induction B generalizing k with
  | zero => cases k <;> rfl
  | succ B ih => cases k with
    | zero => rfl
    | succ k => exact ih k

theorem length_packRowAux (B : Nat) (row : List Bool) (v : Nat) (d : List Nat) :
    (packRowAux B row v d).length = d.length := by
  induction row generalizing v d with
  | nil => rfl
  | cons valveOn rest ih =>
    rw [packRowAux]
    split
    · split
      · rw [ih]; exact List.length_set ..
      · exact ih ..
    · exact ih ..

theorem length_packRow (B : Nat) (row : List Bool) : (packRow B row).length = B := by
  rw [packRow, length_packRowAux, List.length_replicate]

theorem writeBytes_lt (data : List Nat) (buf : Nat → Nat) (off i : Nat)
    (h : i < off) : writeBytes buf off data i = buf i := by
  induction data generalizing buf off with
  | nil => rfl
  | cons d rest ih =>
    rw [writeBytes, ih _ _ (by omega), if_neg (by omega)]

theorem writeBytes_ge (data : List Nat) (buf : Nat → Nat) (off i : Nat)
    (h : off + data.length ≤ i) : writeBytes buf off data i = buf i := by
  induction data generalizing buf off with
  | nil => rfl
  | cons d rest ih =>
    rw [writeBytes, ih _ _ (by simp at h ⊢; omega), if_neg (by simp at h; omega)]

theorem readRow_congr {buf1 buf2 : Nat → Nat} (off B : Nat)
    (h : ∀ j, off ≤ j → j < off + B → buf1 j = buf2 j) :
    readRow buf1 off B = readRow buf2 off B := by
  induction B generalizing off with
  | zero => rfl
  | succ B ih =>
    rw [readRow, readRow, h off (Nat.le_refl _) (by omega),
      ih (off + 1) (fun j h1 h2 => h j (by omega) (by omega))]

theorem readRow_writeBytes (data : List Nat) (buf : Nat → Nat) (off : Nat) :
    readRow (writeBytes buf off data) off data.length = data := by
  induction data generalizing buf off with
  | nil => rfl
  | cons d rest ih =>
    rw [List.length_cons, readRow, writeBytes]
    rw [writeBytes_lt _ _ _ _ (by omega), if_pos rfl, ih]

theorem loadRows_lt (p : List (List Bool)) (buf : Nat → Nat) (B off j : Nat)
    (h : j < off) : loadRows buf B p off j = buf j := by
  induction p generalizing buf off with
  | nil => rfl
  | cons row rest ih =>
    rw [loadRows, ih _ _ (by omega), writeBytes_lt _ _ _ _ h]

theorem loadRows_ge (p : List (List Bool)) (buf : Nat → Nat) (B off j : Nat)
    (h : off + p.length * B ≤ j) : loadRows buf B p off j = buf j := by
  induction p generalizing buf off with
  | nil => rfl
  | cons row rest ih =>
    rw [List.length_cons, Nat.succ_mul] at h
    rw [loadRows, ih _ _ (by omega), writeBytes_ge]
    rw [length_packRow]
    omega

theorem loadRows_readRow (p : List (List Bool)) (buf : Nat → Nat) (B off i : Nat)
    (row : List Bool) (h : p[i]? = some row) :
    readRow (loadRows buf B p off) (off + i * B) B = packRow B row := by
  induction p generalizing buf off i with
  | nil => simp at h
  | cons r rest ih =>
    cases i with
    | zero =>
      rw [List.getElem?_cons_zero, Option.some.injEq] at h
      subst h
      rw [loadRows, Nat.zero_mul, Nat.add_zero]
      have hcong :
          readRow (loadRows (writeBytes buf off (packRow B r)) B rest (off + B)) off B
            = readRow (writeBytes buf off (packRow B r)) off B :=
        readRow_congr off B (fun j h1 h2 => loadRows_lt _ _ _ _ _ (by omega))
      rw [hcong]
      have hlen := length_packRow B r
      calc readRow (writeBytes buf off (packRow B r)) off B
          = readRow (writeBytes buf off (packRow B r)) off (packRow B r).length := by
            rw [hlen]
        _ = packRow B r := readRow_writeBytes ..
    | succ i =>
      rw [List.getElem?_cons_succ] at h
      have : off + (i + 1) * B = (off + B) + i * B := by
        rw [Nat.succ_mul]; omega
      rw [loadRows, this]
      exact ih _ _ _ h

theorem packRowAux_testBit (B : Nat) (row : List Bool) :
    ∀ (v : Nat) (d : List Nat), d.length = B → ∀ k, k < B → ∀ b, b < 8 →
    Nat.testBit ((packRowAux B row v d).getD k 0) b =
      (Nat.testBit (d.getD k 0) b ||
        (decide (v ≤ k * 8 + b) && row.getD (k * 8 + b - v) false)) := by
  induction row with
  | nil =>
    intro v d hd k hk b hb
    simp [packRowAux]
  | cons valveOn rest ih =>
    intro v d hd k hk b hb
    have hstep : packRowAux B (valveOn :: rest) v d = packRowAux B rest (v + 1)
        (if valveOn then
          if v / BITS_PER_BYTE < B then
            d.set (v / BITS_PER_BYTE)
              ((d.getD (v / BITS_PER_BYTE) 0) ||| (1 <<< (v % BITS_PER_BYTE)))
          else d
        else d) := rfl
    have hlen : (if valveOn then
        if v / BITS_PER_BYTE < B then
          d.set (v / BITS_PER_BYTE)
            ((d.getD (v / BITS_PER_BYTE) 0) ||| (1 <<< (v % BITS_PER_BYTE)))
        else d
      else d).length = B := by
      cases valveOn
      · simpa using hd
      · simp only [if_true]
        split
        · rw [List.length_set]; exact hd
        · exact hd
    rw [hstep, ih (v + 1) _ hlen k hk b hb]
    simp only [BITS_PER_BYTE] at *
    by_cases hv : k * 8 + b = v
    · subst hv
      have h1 : (k * 8 + b) / 8 = k := by omega
      have h2 : (k * 8 + b) % 8 = b := by omega
      have h3 : ¬(k * 8 + b + 1 ≤ k * 8 + b) := by omega
      rw [h1, h2, Nat.sub_self]
      cases valveOn
      · simp [h3]
      · rw [if_pos rfl, if_pos hk,
          getD_set_self (by rw [hd]; exact hk),
          Nat.testBit_lor, Nat.one_shiftLeft, Nat.testBit_two_pow_self]
        simp [h3]
    · have hside : Nat.testBit ((if valveOn then
          if v / 8 < B then
            d.set (v / 8) ((d.getD (v / 8) 0) ||| (1 <<< (v % 8)))
          else d
        else d).getD k 0) b = Nat.testBit (d.getD k 0) b := by
        cases valveOn
        · rw [if_neg (by simp)]
        · rw [if_pos rfl]
          by_cases hvB : v / 8 < B
          · rw [if_pos hvB]
            by_cases hk8 : v / 8 = k
            · have hb8 : v % 8 ≠ b := by omega
              rw [hk8, getD_set_self (by rw [hd]; exact hk), Nat.testBit_lor,
                Nat.one_shiftLeft, Nat.testBit_two_pow_of_ne hb8, Bool.or_false]
            · rw [getD_set_ne hk8]
          · rw [if_neg hvB]
      rw [hside]
      by_cases hvle : v ≤ k * 8 + b
      · have hlt : v + 1 ≤ k * 8 + b := by omega
        have hsub : k * 8 + b - v = (k * 8 + b - (v + 1)) + 1 := by omega
        rw [hsub]
        simp [hvle, hlt]
      · have hnlt : ¬(v + 1 ≤ k * 8 + b) := by omega
        simp [hvle, hnlt]

theorem packRow_testBit (B : Nat) (row : List Bool) (vIdx : Nat)
    (h : vIdx < 8 * B) :
    Nat.testBit ((packRow B row).getD (vIdx / 8) 0) (vIdx % 8) =
      row.getD vIdx false := by
  have hk : vIdx / 8 < B := by omega
  have hb : vIdx % 8 < 8 := by omega
  have hidx : vIdx / 8 * 8 + vIdx % 8 = vIdx := by omega
  rw [packRow, packRowAux_testBit B row 0 _ (List.length_replicate ..) _ hk _ hb,
    getD_replicate, Nat.zero_testBit, hidx]
  simp

theorem packRowAux_of_le (B : Nat) (row : List Bool) :
    ∀ (v : Nat) (d : List Nat), 8 * B ≤ v → packRowAux B row v d = d := by
  induction row with
  | nil => intro v d _; rfl
  | cons valveOn rest ih =>
    intro v d hv
    have hB : ¬(v / BITS_PER_BYTE < B) := by
      simp only [BITS_PER_BYTE]; omega
    have hstep : packRowAux B (valveOn :: rest) v d = packRowAux B rest (v + 1)
        (if valveOn then
          if v / BITS_PER_BYTE < B then
            d.set (v / BITS_PER_BYTE)
              ((d.getD (v / BITS_PER_BYTE) 0) ||| (1 <<< (v % BITS_PER_BYTE)))
          else d
        else d) := rfl
    rw [hstep, if_neg hB]
    have : (if valveOn then d else d) = d := by cases valveOn <;> rfl
    rw [this, ih (v + 1) d (by omega)]

theorem packRowAux_take (B : Nat) (row : List Bool) :
    ∀ (v : Nat) (d : List Nat),
      packRowAux B row v d = packRowAux B (row.take (8 * B - v)) v d := by
  induction row with
  | nil => intro v d; rw [List.take_nil]
  | cons valveOn rest ih =>
    intro v d
    by_cases hv : v < 8 * B
    · have : 8 * B - v = (8 * B - (v + 1)) + 1 := by omega
      rw [this, List.take_succ_cons]
      show packRowAux B rest (v + 1) _ = packRowAux B (rest.take (8 * B - (v + 1))) (v + 1) _
      exact ih (v + 1) _
    · rw [packRowAux_of_le B _ v d (by omega), Nat.sub_eq_zero_of_le (by omega),
        List.take_zero]
      rfl

theorem packRow_take (B : Nat) (row : List Bool) :
    packRow B row = packRow B (row.take (8 * B)) := by
  rw [packRow, packRow, packRowAux_take]
  simp

theorem loadRows_map_take (B : Nat) (p : List (List Bool)) :
    ∀ (buf : Nat → Nat) (off : Nat),
      loadRows buf B (p.map (fun r => r.take (8 * B))) off = loadRows buf B p off := by
  induction p with
  | nil => intro buf off; rfl
  | cons row rest ih =>
    intro buf off
    rw [List.map_cons, loadRows, loadRows, ← packRow_take, ih]

/-! ### Helper lemmas about the playback cursor and the WiFi join loop -/

theorem advanceCursor_eq_mod (n c : Nat) (h : c < n) :
    advanceCursor n c = (c + 1) % n := by
  rw [advanceCursor]
  by_cases h1 : n ≤ c + 1
  · have : c + 1 = n := by omega
    rw [if_pos h1, this, Nat.mod_self]
  · rw [if_neg h1, Nat.mod_eq_of_lt (by omega)]

theorem advanceCursor_lt (n c : Nat) (h : 0 < n) : advanceCursor n c < n := by
  rw [advanceCursor]
  split <;> omega

theorem advanceCursor_iterate (n : Nat) (k : Nat) :
    ∀ c, c < n → (advanceCursor n)^[k] c = (c + k) % n := by
  induction k with
  | zero =>
    intro c hc
    rw [Function.iterate_zero_apply, Nat.add_zero, Nat.mod_eq_of_lt hc]
  | succ k ih =>
    intro c hc
    rw [Function.iterate_succ_apply, advanceCursor_eq_mod n c hc,
      ih _ (Nat.mod_lt _ (by omega)), Nat.mod_add_mod]
    congr 1
    omega

theorem staAttempts_le (wifi : Nat → Bool) :
    ∀ (retries n : Nat), staAttempts wifi n retries ≤ n + retries := by
  intro retries
  induction retries with
  | zero => intro n; simp [staAttempts]
  | succ r ih =>
    intro n
    rw [staAttempts]
    split
    · omega
    · have := ih (n + 1)
      omega

/-! ### Concrete states used by witnesses and counterexamples -/

/-- Sample persisted configuration: 16 valves, 4 LEDs, configured. -/
def sampleConfig : Configuration :=
  { magic := CONFIG_MAGIC
    ssid := "net"
    password := "pw"
    numValves := 16
    numLeds := 4
    configured := true }

/-- Wide sample device state: 32768 valves (4096 bytes per row), so that a
handful of rows already exceeds the 8192-byte buffer. -/
def wideState : DeviceState :=
  { config :=
      { magic := CONFIG_MAGIC
        ssid := "net"
        password := "pw"
        numValves := 32768
        numLeds := 4
        configured := true }
    eeprom :=
      { magic := CONFIG_MAGIC
        ssid := "net"
        password := "pw"
        numValves := 32768
        numLeds := 4
        configured := true }
    bytesPerRow := 4096
    patternBuffer := fun _ => 0
    leds := some (List.replicate 4 CRGB.black)
    numPatternRows := 4
    currentPatternRow := 0
    isPlaying := true
    animationSpeed := 100 }

/-- Configured sample device state: 16 valves (2 bytes per row), 4 LEDs,
playing, with a given pattern-row count, cursor position and buffer. -/
def sampleState (rows cursor : Nat) (buf : Nat → Nat) : DeviceState :=
  { config := sampleConfig
    eeprom := sampleConfig
    bytesPerRow := 2
    patternBuffer := buf
    leds := some (List.replicate 4 CRGB.black)
    numPatternRows := rows
    currentPatternRow := cursor
    isPlaying := true
    animationSpeed := 100 }

/-! ### Claim theorems -/

/-- C1 (amended): a `load_pattern` command whose row count `R` satisfies
`R * bytes_per_row <= capacity` succeeds with no error and leaves
`row_count = R`; a command with `R * bytes_per_row > capacity` is rejected
wholesale with an error logged and the buffer contents untouched, but
`row_count` is set to 0 rather than left at its previous value. -/
theorem load_pattern_capacity (s : DeviceState) (P : List (List Bool)) :
    (P.length * s.bytesPerRow ≤ PATTERN_BUFFER_SIZE →
      (onWsEvent s (WsMessage.loadPatternCmd P)).errorLogged = false ∧
      (onWsEvent s (WsMessage.loadPatternCmd P)).state.numPatternRows = P.length) ∧
    (PATTERN_BUFFER_SIZE < P.length * s.bytesPerRow →
      (onWsEvent s (WsMessage.loadPatternCmd P)).errorLogged = true ∧
      (onWsEvent s (WsMessage.loadPatternCmd P)).state.numPatternRows = 0 ∧
      ∀ j, (onWsEvent s (WsMessage.loadPatternCmd P)).state.patternBuffer j
        = s.patternBuffer j) := by
  constructor
  · intro h
    simp only [onWsEvent, loadPattern]
    rw [if_neg (by omega)]
    exact ⟨rfl, rfl⟩
  · intro h
    simp only [onWsEvent, loadPattern]
    rw [if_pos h]
    exact ⟨rfl, rfl, fun j => rfl⟩

/-- C1 counterexample: rejecting an oversized pattern (3 rows of 4096
bytes against the 8192-byte buffer) does not leave the previous
`row_count` (4 here) unchanged; it zeroes it. -/
theorem load_pattern_capacity_counterexample :
    (onWsEvent wideState
        (WsMessage.loadPatternCmd [[], [], []])).state.numPatternRows
      ≠ wideState.numPatternRows := by
  decide

/-- C1 witness: a 2-row pattern at 2 bytes per row loads with
`row_count = 2` and no error; 3 rows of 4096 bytes overflow the 8192-byte
buffer and are rejected with the error logged. -/
theorem load_pattern_capacity_witness :
    ((onWsEvent (sampleState 4 0 (fun _ => 0))
        (WsMessage.loadPatternCmd [[true], [false]])).errorLogged = false ∧
      (onWsEvent (sampleState 4 0 (fun _ => 0))
        (WsMessage.loadPatternCmd [[true], [false]])).state.numPatternRows
        = [[true], [false]].length) ∧
    (onWsEvent wideState
        (WsMessage.loadPatternCmd [[], [], []])).errorLogged = true :=
  ⟨(load_pattern_capacity (sampleState 4 0 (fun _ => 0)) [[true], [false]]).1 (by decide),
    ((load_pattern_capacity wideState [[], [], []]).2 (by decide)).1⟩

/-- C2: a playback tick in state PLAYING with `row_count > 0` (and the row
offset inside the buffer) writes to the shift registers exactly the bytes
stored at buffer offset `current_row * bytes_per_row` — the row at index
`current_row`, with no inversion inside the engine — and then advances the
cursor by one with wraparound. -/
theorem playback_tick_buffer_order (s : DeviceState)
    (h1 : s.config.configured = true) (h2 : s.isPlaying = true)
    (h3 : 0 < s.numPatternRows)
    (h4 : s.currentPatternRow * s.bytesPerRow + s.bytesPerRow ≤ PATTERN_BUFFER_SIZE) :
    (loopTick s true).2
      = some (readRow s.patternBuffer (s.currentPatternRow * s.bytesPerRow)
          s.bytesPerRow) ∧
    (loopTick s true).1.currentPatternRow
      = advanceCursor s.numPatternRows s.currentPatternRow := by
  simp only [loopTick]
  rw [if_pos ⟨h1, h2, h3, trivial⟩, if_pos h4]
  exact ⟨rfl, rfl⟩

/-- C2 witness: with 2 rows of 2 bytes and cursor 1, the tick writes bytes
2 and 3 of the buffer (row index 1) and wraps the cursor to 0. -/
theorem playback_tick_buffer_order_witness :
    (loopTick (sampleState 2 1 (fun i => i)) true).2 = some [2, 3] ∧
    (loopTick (sampleState 2 1 (fun i => i)) true).1.currentPatternRow = 0 :=
  ⟨((playback_tick_buffer_order (sampleState 2 1 (fun i => i)) rfl rfl (by decide)
      (by decide)).1).trans (by decide),
    ((playback_tick_buffer_order (sampleState 2 1 (fun i => i)) rfl rfl (by decide)
      (by decide)).2).trans (by decide)⟩

/-- C3 (amended): the `play` command resets the cursor to 0, but the
`load_pattern` command leaves the cursor unchanged (it is only wrapped to 0
at a later tick once it reaches the new row count). -/
theorem cursor_reset_on_play_only (s : DeviceState) (P : List (List Bool)) :
    (onWsEvent s WsMessage.play).state.currentPatternRow = 0 ∧
    (onWsEvent s (WsMessage.loadPatternCmd P)).state.currentPatternRow
      = s.currentPatternRow := by
  constructor
  · rfl
  · simp only [onWsEvent, loadPattern]
    split <;> rfl

/-- C3 counterexample: loading a fresh (valid, in-capacity) pattern with the
cursor at 3 leaves the cursor at 3, not 0. -/
theorem cursor_reset_on_play_only_counterexample :
    (onWsEvent (sampleState 4 3 (fun _ => 0))
        (WsMessage.loadPatternCmd [[true]])).state.currentPatternRow ≠ 0 := by
  decide

/-- C4 (amended): with no intervening commands, from any state with
`cursor < row_count` the cursor stays below `row_count` after any number of
advances and returns to its start after exactly `row_count` advances; the
law does not survive an intervening load of a smaller pattern, since
`load_pattern` does not reset the cursor. -/
theorem advance_cyclic_law (n c : Nat) (h : c < n) :
    (∀ k, (advanceCursor n)^[k] c < n) ∧ (advanceCursor n)^[n] c = c := by
  have h0 : 0 < n := by omega
  constructor
  · intro k
    rw [advanceCursor_iterate n k c h]
    exact Nat.mod_lt _ h0
  · rw [advanceCursor_iterate n n c h, Nat.add_mod_right, Nat.mod_eq_of_lt h]

/-- C4 counterexample: from `row_count = 4`, `cursor = 3`, loading a 2-row
pattern leaves `cursor = 3 >= row_count = 2`, so the invariant
`cursor < row_count` fails across the intervening command, and applying
`row_count` advances no longer returns the cursor to its value. -/
theorem advance_cyclic_law_counterexample :
    ¬((onWsEvent (sampleState 4 3 (fun _ => 0))
        (WsMessage.loadPatternCmd [[true], [false]])).state.currentPatternRow
      < (onWsEvent (sampleState 4 3 (fun _ => 0))
        (WsMessage.loadPatternCmd [[true], [false]])).state.numPatternRows) ∧
    (advanceCursor 2)^[2] 3 ≠ 3 := by
  exact ⟨by decide, by decide⟩

/-- C4 witness: from cursor 1 of 3 rows, 3 advances return to 1 and 2
advances stay below 3. -/
theorem advance_cyclic_law_witness :
    1 < 3 ∧ (advanceCursor 3)^[3] 1 = 1 ∧ (advanceCursor 3)^[2] 1 < 3 :=
  ⟨by decide, (advance_cyclic_law 3 1 (by decide)).2,
    (advance_cyclic_law 3 1 (by decide)).1 2⟩

/-- C5: a stored record whose magic sentinel mismatches or whose valve or
LED count is non-positive loads as the blank record, with the EEPROM
cleared first — never as a partially-valid record. -/
theorem load_configuration_invalid_blank (stored : Configuration)
    (h : stored.magic ≠ CONFIG_MAGIC ∨ stored.numValves ≤ 0 ∨ stored.numLeds ≤ 0) :
    loadConfiguration stored = (blankConfig, blankConfig) := by
  rw [loadConfiguration, if_pos h]

/-- C5 witness: a record with a zeroed magic but otherwise plausible fields
loads as the blank record. -/
theorem load_configuration_invalid_blank_witness :
    loadConfiguration
        { magic := 0, ssid := "net", password := "pw", numValves := 16,
          numLeds := 16, configured := true }
      = (blankConfig, blankConfig) :=
  load_configuration_invalid_blank _ (by decide)

/-- C6: the STA join loop uses a fixed budget of 20 polls with fixed
backoff (so it always terminates, executing at most 20 delays), and if the
network never connects the stored configuration is cleared and the device
restarts. -/
theorem sta_join_bounded_fallback (s : DeviceState) (wifi : Nat → Bool)
    (h : ∀ t, wifi t = false) :
    staAttempts wifi 0 20 ≤ 20 ∧
    setupSTA s wifi = (clearConfiguration s, true) := by
  refine ⟨by simpa using staAttempts_le wifi 20 0, ?_⟩
  simp [setupSTA, h]

/-- C6 witness: with a network that never connects, the join gives up after
its 20-poll budget, clears the configuration and restarts. -/
theorem sta_join_bounded_fallback_witness :
    staAttempts (fun _ => false) 0 20 ≤ 20 ∧
    setupSTA (sampleState 0 0 (fun _ => 0)) (fun _ => false)
      = (clearConfiguration (sampleState 0 0 (fun _ => 0)), true) :=
  sta_join_bounded_fallback (sampleState 0 0 (fun _ => 0)) (fun _ => false)
    (fun _ => rfl)

/-- C7 (amended): an unparsable message is logged and dropped; a message
without an `action` field is dropped without a log line; in both cases the
device state is unchanged, no restart is requested, nothing is written to
the hardware, and the channel is never closed. -/
theorem malformed_message_no_effect (s : DeviceState) :
    onWsEvent s WsMessage.unparsable = ⟨s, false, false, none, true⟩ ∧
    onWsEvent s WsMessage.noAction = ⟨s, false, false, none, false⟩ :=
  ⟨rfl, rfl⟩

/-- C7 counterexample: handling a message that lacks the `action` field
does drop it with the state unchanged, but nothing is logged — refuting
the claim that such messages are dropped after logging. -/
theorem malformed_message_no_effect_counterexample :
    (onWsEvent (sampleState 0 0 (fun _ => 0)) WsMessage.noAction).state
      = sampleState 0 0 (fun _ => 0) ∧
    (onWsEvent (sampleState 0 0 (fun _ => 0))
        WsMessage.noAction).errorLogged ≠ true :=
  ⟨rfl, by decide⟩

/-- C8: a `config` command with a non-positive count or with both counts
equal to the current configuration has no effect at all; otherwise it
updates the configuration, recomputes `bytes_per_row = ceil(valves/8)`,
reallocates the LED buffer (all off) and persists the new topology (with
the magic sentinel) to EEPROM. -/
theorem config_command_guard_and_effect (s : DeviceState) (v l : Int) :
    ((v ≤ 0 ∨ l ≤ 0 ∨ (v = s.config.numValves ∧ l = s.config.numLeds)) →
      onWsEvent s (WsMessage.configCmd v l) = ⟨s, false, false, none, false⟩) ∧
    (0 < v → 0 < l → (v ≠ s.config.numValves ∨ l ≠ s.config.numLeds) →
      (onWsEvent s (WsMessage.configCmd v l)).state.bytesPerRow
        = (v.toNat + 8 - 1) / 8 ∧
      (onWsEvent s (WsMessage.configCmd v l)).state.leds
        = some (List.replicate l.toNat CRGB.black) ∧
      (onWsEvent s (WsMessage.configCmd v l)).state.config
        = { s.config with magic := CONFIG_MAGIC, numValves := v, numLeds := l } ∧
      (onWsEvent s (WsMessage.configCmd v l)).state.eeprom
        = { s.config with magic := CONFIG_MAGIC, numValves := v, numLeds := l }) := by
  constructor
  · intro h
    rw [onWsEvent, if_neg]
    rintro ⟨h1, h2, h3⟩
    rcases h with h | h | ⟨he1, he2⟩
    · omega
    · omega
    · rcases h3 with h3 | h3
      · exact h3 he1
      · exact h3 he2
  · intro hv hl hne
    rw [onWsEvent, if_pos ⟨hv, hl, hne⟩]
    simp only [setupHardware, saveConfiguration]
    rw [if_pos ⟨hv, hl⟩]
    simp only [BITS_PER_BYTE]
    exact ⟨trivial, trivial, trivial, trivial⟩

/-- C8 witness: on the sample state (16 valves, 4 LEDs), `config 16 4` is a
no-op, and `config 24 10` reconfigures to 3 bytes per row with a fresh
10-LED buffer. -/
theorem config_command_guard_and_effect_witness :
    onWsEvent (sampleState 0 0 (fun _ => 0)) (WsMessage.configCmd 16 4)
      = ⟨sampleState 0 0 (fun _ => 0), false, false, none, false⟩ ∧
    (onWsEvent (sampleState 0 0 (fun _ => 0))
        (WsMessage.configCmd 24 10)).state.bytesPerRow = (Int.toNat 24 + 8 - 1) / 8 :=
  ⟨(config_command_guard_and_effect (sampleState 0 0 (fun _ => 0)) 16 4).1
      (Or.inr (Or.inr (by decide))),
    ((config_command_guard_and_effect (sampleState 0 0 (fun _ => 0)) 24 10).2
      (by decide) (by decide) (Or.inl (by decide))).1⟩

/-- C9: after a `load_pattern` that fits the buffer, reading back row `i`
for the driver yields exactly the packed bytes of the uploaded row `i`, and
bit `v` of those bytes equals the `v`-th uploaded boolean, for every valve
position `v` within the row width. -/
theorem load_pattern_roundtrip (s : DeviceState) (P : List (List Bool))
    (i : Nat) (row : List Bool)
    (hfit : P.length * s.bytesPerRow ≤ PATTERN_BUFFER_SIZE)
    (hrow : P[i]? = some row) :
    readRow ((onWsEvent s (WsMessage.loadPatternCmd P)).state.patternBuffer)
        (i * s.bytesPerRow) s.bytesPerRow = packRow s.bytesPerRow row ∧
    ∀ v, v < 8 * s.bytesPerRow →
      Nat.testBit ((packRow s.bytesPerRow row).getD (v / 8) 0) (v % 8)
        = row.getD v false := by
  constructor
  · have hb : (onWsEvent s (WsMessage.loadPatternCmd P)).state.patternBuffer
        = loadRows s.patternBuffer s.bytesPerRow P 0 := by
      simp only [onWsEvent, loadPattern]
      rw [if_neg (by omega)]
    rw [hb]
    have h := loadRows_readRow P s.patternBuffer s.bytesPerRow 0 i row hrow
    rwa [Nat.zero_add] at h
  · intro v hv
    exact packRow_testBit s.bytesPerRow row v hv

/-- C9 witness: with 16 valves (2 bytes per row), uploading 4 rows whose
row 0 is 16 falses and row 1 has only valves 0 and 15 open gives
`row_count = 4`, the driver bytes `[0x00, 0x00]` for row 0, and
`[0x01, 0x80]` (bit 0 and bit 15 split across the two bytes) for row 1. -/
theorem load_pattern_roundtrip_witness :
    readRow ((onWsEvent (sampleState 0 0 (fun _ => 0))
        (WsMessage.loadPatternCmd
          [List.replicate 16 false, true :: (List.replicate 14 false ++ [true]),
            List.replicate 16 false, List.replicate 16 false])).state.patternBuffer)
      0 2 = [0, 0] ∧
    readRow ((onWsEvent (sampleState 0 0 (fun _ => 0))
        (WsMessage.loadPatternCmd
          [List.replicate 16 false, true :: (List.replicate 14 false ++ [true]),
            List.replicate 16 false, List.replicate 16 false])).state.patternBuffer)
      2 2 = [1, 128] ∧
    (onWsEvent (sampleState 0 0 (fun _ => 0))
        (WsMessage.loadPatternCmd
          [List.replicate 16 false, true :: (List.replicate 14 false ++ [true]),
            List.replicate 16 false, List.replicate 16 false])).state.numPatternRows
      = 4 := by
  refine ⟨?_, ?_, by decide⟩
  · exact ((load_pattern_roundtrip (sampleState 0 0 (fun _ => 0)) _ 0
      (List.replicate 16 false) (by decide) (by decide)).1).trans (by decide)
  · exact ((load_pattern_roundtrip (sampleState 0 0 (fun _ => 0)) _ 1
      (true :: (List.replicate 14 false ++ [true])) (by decide) (by decide)).1).trans
      (by decide)

/-- C10: a fitting `load_pattern` only ever writes inside the first
`R * bytes_per_row` bytes of the fixed buffer; each packed row is exactly
`bytes_per_row` bytes; and boolean entries beyond `bytes_per_row * 8` are
silently ignored — loading the pattern equals loading its per-row
truncation to `bytes_per_row * 8` entries. -/
theorem load_pattern_bounds (s : DeviceState) (P : List (List Bool))
    (hfit : P.length * s.bytesPerRow ≤ PATTERN_BUFFER_SIZE) :
    (∀ j, (onWsEvent s (WsMessage.loadPatternCmd P)).state.patternBuffer j
        ≠ s.patternBuffer j → j < P.length * s.bytesPerRow) ∧
    (∀ j, (onWsEvent s (WsMessage.loadPatternCmd P)).state.patternBuffer j
        = (onWsEvent s (WsMessage.loadPatternCmd
            (P.map (fun r => r.take (8 * s.bytesPerRow))))).state.patternBuffer j) ∧
    ∀ row, (packRow s.bytesPerRow row).length = s.bytesPerRow := by
  have hb : (onWsEvent s (WsMessage.loadPatternCmd P)).state.patternBuffer
      = loadRows s.patternBuffer s.bytesPerRow P 0 := by
    simp only [onWsEvent, loadPattern]
    rw [if_neg (by omega)]
  have hb2 : (onWsEvent s (WsMessage.loadPatternCmd
        (P.map (fun r => r.take (8 * s.bytesPerRow))))).state.patternBuffer
      = loadRows s.patternBuffer s.bytesPerRow
          (P.map (fun r => r.take (8 * s.bytesPerRow))) 0 := by
    simp only [onWsEvent, loadPattern]
    rw [if_neg (by rw [List.length_map]; omega)]
  refine ⟨?_, ?_, fun row => length_packRow ..⟩
  · intro j hj
    by_contra hge
    exact hj (by
      rw [hb]
      exact loadRows_ge P _ _ 0 j (by omega))
  · intro j
    rw [hb, hb2, loadRows_map_take]

/-- C10 witness: at 2 bytes per row, a 20-entry row loads identically to
its 16-entry truncation (the 4 excess entries set no bit), the packed row
is 2 bytes, and byte 100 of the buffer — beyond the written region — is
untouched. -/
theorem load_pattern_bounds_witness :
    (packRow 2 (List.replicate 20 true)).length = 2 ∧
    (onWsEvent (sampleState 0 0 (fun _ => 5))
        (WsMessage.loadPatternCmd [List.replicate 20 true])).state.patternBuffer 1
      = (onWsEvent (sampleState 0 0 (fun _ => 5))
          (WsMessage.loadPatternCmd
            ([List.replicate 20 true].map
              (fun r => r.take
                (8 * (sampleState 0 0 (fun _ => 5)).bytesPerRow))))).state.patternBuffer 1 ∧
    (onWsEvent (sampleState 0 0 (fun _ => 5))
        (WsMessage.loadPatternCmd [List.replicate 20 true])).state.patternBuffer 100 = 5 :=
  ⟨(load_pattern_bounds (sampleState 0 0 (fun _ => 5)) [List.replicate 20 true]
      (by decide)).2.2 _,
    (load_pattern_bounds (sampleState 0 0 (fun _ => 5)) [List.replicate 20 true]
      (by decide)).2.1 1,
    by decide⟩

end DWC
